import Mathlib

/-!
Shallow embedding of the level-crossing ("Bahnübergang") Arduino sketch of the
projektwoche-2025-eisenbahn repository (`src/unnamed/part_002`, lines 1-231).

The sketch is a single non-blocking control loop.  Each iteration optionally
consumes one serial input line and then advances four timer-driven sub-states:
the channel-1 servo (timed interpolation or legacy step mode), the channel-2
servo (timed interpolation), the crossing lamp blinker, and the crossing
sequencer (pre-close delay, opening lamp-stop delay).

Modelling conventions:
* `millis()` is modelled as a natural-number timestamp supplied with each loop
  iteration; the several `millis()` calls inside one iteration are identified.
  `unsigned long` subtraction `now - start` is modelled by truncated natural
  subtraction, which agrees with the 32-bit modular difference whenever time is
  monotone and no 49-day wrap occurs (start values are always earlier `now`s).
* `float` interpolation arithmetic is modelled exactly over `ℚ`; the C `round`
  (half away from zero) is `roundC` below.
* Hardware effects are recorded in the state: servo positions as the current
  angles, lamp pins as Booleans, channel-1 `Serial.println` feedback in the
  ghost trace `serialOut`, and every firing of the delayed barrier-close branch
  in the ghost trace `closeMoves` (recording the move parameters it installs).
* Arduino `String::toInt` is `atol`: skip whitespace, optional sign, leading
  digits, result `0` when no digit is present.  `sscanf("%d %d")` is modelled
  by `sscanf2`, returning `none` when no integer can be converted.
-/

namespace Crossing

/-- Ghost record of one barrier-close move installed by the crossing sequencer
(the values assigned to the servo-2 move state at lines 215-218 of the sketch). -/
structure TimedMoveRec where
  startAngle : ℤ
  endAngle : ℤ
  startMs : ℕ
  durationMs : ℕ
deriving DecidableEq, Repr

/-- The global mutable state of the sketch (lines 6-46), plus the two ghost
traces `serialOut` (channel-1 feedback lines) and `closeMoves` (delayed
barrier-close firings). -/
structure SketchState where
  currentAngle : ℤ
  targetAngle : ℤ
  lastStepMs : ℕ
  lampPhase : Bool
  lastLampToggleMs : ℕ
  moveActive : Bool
  moveStartAngle : ℤ
  moveEndAngle : ℤ
  moveStartMs : ℕ
  moveDurationMs : ℕ
  currentAngle2 : ℤ
  move2Active : Bool
  move2StartAngle : ℤ
  move2EndAngle : ℤ
  move2StartMs : ℕ
  move2DurationMs : ℕ
  crossingBlinkActive : Bool
  crossingCloseCommanded : Bool
  crossingOpeningDelayActive : Bool
  crossingBlinkStartMs : ℕ
  crossingOpeningStartMs : ℕ
  lamp1 : Bool
  lamp2 : Bool
  serialOut : List ℤ
  closeMoves : List TimedMoveRec
deriving DecidableEq, Repr

def stepIntervalMs : ℕ := 15
def stepSize : ℤ := 2
def lampBlinkIntervalMs : ℕ := 400
def preBlinkDelayMs : ℕ := 6000
def lampStopDelayMs : ℕ := 500
def barrierClosedAngle : ℤ := 90
def barrierOpenAngle : ℤ := 0
def barrierCloseDurationMs : ℕ := 2000
def barrierOpenDurationMs : ℕ := 3000

/-- The state after `setup()` (lines 48-59): both angles 90, lamps low, no
active moves, crossing machine idle. -/
def initState : SketchState where
  currentAngle := 90
  targetAngle := 90
  lastStepMs := 0
  lampPhase := false
  lastLampToggleMs := 0
  moveActive := false
  moveStartAngle := 90
  moveEndAngle := 90
  moveStartMs := 0
  moveDurationMs := 0
  currentAngle2 := 90
  move2Active := false
  move2StartAngle := 90
  move2EndAngle := 90
  move2StartMs := 0
  move2DurationMs := 0
  crossingBlinkActive := false
  crossingCloseCommanded := false
  crossingOpeningDelayActive := false
  crossingBlinkStartMs := 0
  crossingOpeningStartMs := 0
  lamp1 := false
  lamp2 := false
  serialOut := []
  closeMoves := []

/-- C `isspace`, used by Arduino `String::trim`. -/
def isSpaceCh (c : Char) : Bool :=
  c = ' ' || c = '\t' || c = '\n' || c = '\x0b' || c = '\x0c' || c = '\r'

/-- Arduino `String::trim`: strip leading and trailing whitespace. -/
def trimChars (l : List Char) : List Char :=
  ((l.dropWhile isSpaceCh).reverse.dropWhile isSpaceCh).reverse

/-- Arduino `String::equalsIgnoreCase`. -/
def lowerEq (a b : List Char) : Bool :=
  a.map Char.toLower == b.map Char.toLower

/-- Arduino `line.startsWith("M2")` (case sensitive). -/
def startsWithM2 : List Char → Bool
  | 'M' :: '2' :: _ => true
  | _ => false

/-- Arduino `String::indexOf(char)`: index of the first occurrence, if any. -/
def idxOf (c : Char) : List Char → Option ℕ
  | [] => none
  | x :: rest => if x = c then some 0 else (idxOf c rest).map (· + 1)

/-- Consume a maximal run of leading decimal digits, accumulating their value. -/
def scanDigits : List Char → ℤ → ℤ × List Char
  | [], acc => (acc, [])
  | x :: rest, acc =>
      if x.isDigit then scanDigits rest (acc * 10 + ((x.toNat : ℤ) - 48))
      else (acc, x :: rest)

/-- One `%d`-style unsigned conversion: fails unless a digit is first. -/
def scanUIntZ : List Char → Option (ℤ × List Char)
  | [] => none
  | x :: rest =>
      if x.isDigit then some (scanDigits (x :: rest) 0) else none

/-- One `sscanf` `%d` conversion: skip whitespace, optional sign, digits. -/
def scanIntZ (l : List Char) : Option (ℤ × List Char) :=
  match l.dropWhile isSpaceCh with
  | '-' :: rest => (scanUIntZ rest).map (fun p => (-p.1, p.2))
  | '+' :: rest => scanUIntZ rest
  | l1 => scanUIntZ l1

/-- The sketch's `sscanf(line, "%d %d", &a, &d)` (line 133): `none` means no
conversion succeeded (`parsed <= 0`), `some (a, none)` means `parsed == 1`,
`some (a, some d)` means `parsed == 2`. -/
def sscanf2 (l : List Char) : Option (ℤ × Option ℤ) :=
  match scanIntZ l with
  | none => none
  | some (a, rest) =>
    match scanIntZ rest with
    | none => some (a, none)
    | some (d, _) => some (a, some d)

/-- Arduino `String::toInt`, i.e. C `atol`: skip whitespace, optional sign,
leading digits; `0` when no digit follows. -/
def atolZ (l : List Char) : ℤ :=
  match l.dropWhile isSpaceCh with
  | '-' :: rest => -(scanDigits rest 0).1
  | '+' :: rest => (scanDigits rest 0).1
  | l1 => (scanDigits l1 0).1

/-- Arduino `constrain(x, lo, hi)`. -/
def constrainZ (x lo hi : ℤ) : ℤ :=
  if x < lo then lo else if hi < x then hi else x

/-- Argument extraction of the `M2` branch (lines 99-113): returns the pair
`(a2, d2)`, both defaulting to `-1` when the line has no argument part. -/
def parseM2 (cs : List Char) : ℤ × ℤ :=
  match idxOf ' ' cs with
  | none => (-1, -1)
  | some i =>
    if 0 < i then
      let rest := trimChars (cs.drop (i + 1))
      match idxOf ' ' rest with
      | some j => (constrainZ (atolZ (rest.take j)) 0 180, atolZ (rest.drop (j + 1)))
      | none => (constrainZ (atolZ rest) 0 180, -1)
    else (-1, -1)

/-- Execution part of the `M2` branch (lines 114-129). -/
def execM2 (a2 d2 : ℤ) (now : ℕ) (s : SketchState) : SketchState :=
  if 0 ≤ a2 ∧ a2 ≤ 180 then
    if 0 < d2 then
      { s with move2StartAngle := s.currentAngle2, move2EndAngle := a2,
               move2StartMs := now, move2DurationMs := d2.toNat, move2Active := true }
    else
      { s with currentAngle2 := a2, move2Active := false }
  else s

/-- The channel-1 default branch (lines 130-148), applied to the `sscanf2`
result of the trimmed line. -/
def execCh1 (p : Option (ℤ × Option ℤ)) (now : ℕ) (s : SketchState) : SketchState :=
  match p with
  | none => s
  | some (a, dOpt) =>
    if 0 ≤ a ∧ a ≤ 180 then
      match dOpt with
      | some d =>
        if 0 < d then
          { s with moveStartAngle := s.currentAngle, moveEndAngle := a,
                   moveStartMs := now, moveDurationMs := d.toNat, moveActive := true }
        else { s with targetAngle := a, moveActive := false }
      | none => { s with targetAngle := a, moveActive := false }
    else s

/-- The serial-input section of `loop()` (lines 62-150): trim the line, then
dispatch on BZU / BAUF / M2 / default channel-1 grammar. -/
def processLine (line : String) (now : ℕ) (s : SketchState) : SketchState :=
  let cs := trimChars line.data
  if 0 < cs.length then
    if lowerEq cs ['B', 'Z', 'U'] then
      { s with crossingBlinkActive := true, crossingCloseCommanded := false,
               crossingOpeningDelayActive := false, crossingBlinkStartMs := now,
               lampPhase := false, lamp1 := true, lamp2 := false,
               lastLampToggleMs := now }
    else if lowerEq cs ['B', 'A', 'U', 'F'] then
      let s1 :=
        if s.crossingBlinkActive then
          { s with crossingOpeningDelayActive := true, crossingOpeningStartMs := now }
        else s
      { s1 with crossingCloseCommanded := false,
                move2StartAngle := s1.currentAngle2, move2EndAngle := barrierOpenAngle,
                move2StartMs := now, move2DurationMs := barrierOpenDurationMs,
                move2Active := true }
    else if startsWithM2 cs then
      execM2 (parseM2 cs).1 (parseM2 cs).2 now s
    else
      execCh1 (sscanf2 cs) now s
  else s

/-- Interpolation fraction `t` of a timed move (lines 157 and 191): `1` for a
zero duration, else `min 1 (elapsed / duration)`. -/
def moveT (elapsed dur : ℕ) : ℚ :=
  if dur = 0 then 1 else min 1 ((elapsed : ℚ) / (dur : ℚ))

/-- C `round`: round half away from zero. -/
def roundC (q : ℚ) : ℤ :=
  if 0 ≤ q then ⌊q + 1 / 2⌋ else -⌊-q + 1 / 2⌋

/-- The interpolated angle of a timed move (lines 158 and 192). -/
def interpAngle (a0 a1 : ℤ) (elapsed dur : ℕ) : ℤ :=
  roundC ((a0 : ℚ) + ((a1 : ℚ) - (a0 : ℚ)) * moveT elapsed dur)

/-- The channel-1 servo section of `loop()` (lines 154-186): timed
interpolation when a move is active, otherwise the legacy step mode. -/
def servo1Section (now : ℕ) (s : SketchState) : SketchState :=
  if s.moveActive then
    let elapsed := now - s.moveStartMs
    let t := moveT elapsed s.moveDurationMs
    let newAngle := interpAngle s.moveStartAngle s.moveEndAngle elapsed s.moveDurationMs
    let s1 :=
      if newAngle ≠ s.currentAngle then
        { s with currentAngle := newAngle, serialOut := newAngle :: s.serialOut }
      else s
    if 1 ≤ t then { s1 with moveActive := false, targetAngle := s1.currentAngle } else s1
  else
    if stepIntervalMs ≤ now - s.lastStepMs then
      let s1 :=
        if s.currentAngle < s.targetAngle then
          let na := min (s.currentAngle + stepSize) s.targetAngle
          { s with currentAngle := na, serialOut := na :: s.serialOut }
        else if s.targetAngle < s.currentAngle then
          let na := max (s.currentAngle - stepSize) s.targetAngle
          { s with currentAngle := na, serialOut := na :: s.serialOut }
        else s
      { s1 with lastStepMs := now }
    else s

/-- The channel-2 servo section of `loop()` (lines 188-201). -/
def servo2Section (now : ℕ) (s : SketchState) : SketchState :=
  if s.move2Active then
    let elapsed := now - s.move2StartMs
    let t := moveT elapsed s.move2DurationMs
    let newAngle := interpAngle s.move2StartAngle s.move2EndAngle elapsed s.move2DurationMs
    let s1 := if newAngle ≠ s.currentAngle2 then { s with currentAngle2 := newAngle } else s
    if 1 ≤ t then { s1 with move2Active := false } else s1
  else s

/-- The periodic lamp toggle (lines 206-211), run while blinking is active. -/
def lampToggleStep (now : ℕ) (s : SketchState) : SketchState :=
  if lampBlinkIntervalMs ≤ now - s.lastLampToggleMs then
    let p := !s.lampPhase
    { s with lampPhase := p, lamp1 := !p, lamp2 := p, lastLampToggleMs := now }
  else s

/-- The guard of the delayed barrier-close branch (line 214) without the
enclosing `crossingBlinkActive` test. -/
def rawTrig (now : ℕ) (s : SketchState) : Bool :=
  !s.crossingCloseCommanded && !s.crossingOpeningDelayActive
    && decide (preBlinkDelayMs ≤ now - s.crossingBlinkStartMs)

/-- The guard of the delayed lamp-stop branch (line 225). -/
def stopCond (now : ℕ) (s : SketchState) : Bool :=
  s.crossingOpeningDelayActive
    && decide (lampStopDelayMs ≤ now - s.crossingOpeningStartMs)

/-- The delayed barrier-close branch (lines 214-221), run while blinking is
active: after the pre-close delay, and only when no close was already
commanded and no opening is pending, install the timed close move.  The ghost
trace `closeMoves` records each firing. -/
def closeTriggerStep (now : ℕ) (s : SketchState) : SketchState :=
  if rawTrig now s then
    { s with move2StartAngle := s.currentAngle2, move2EndAngle := barrierClosedAngle,
             move2StartMs := now, move2DurationMs := barrierCloseDurationMs,
             move2Active := true, crossingCloseCommanded := true,
             closeMoves := ⟨s.currentAngle2, barrierClosedAngle, now,
                            barrierCloseDurationMs⟩ :: s.closeMoves }
  else s

/-- The delayed lamp stop when opening (lines 225-230). -/
def stopStep (now : ℕ) (s : SketchState) : SketchState :=
  if stopCond now s then
    { s with crossingBlinkActive := false, crossingOpeningDelayActive := false,
             lamp1 := false, lamp2 := false }
  else s

/-- The crossing section of `loop()` (lines 203-230): lamp toggling and the
delayed barrier-close branch while blinking, then the delayed lamp stop. -/
def crossingSection (now : ℕ) (s : SketchState) : SketchState :=
  stopStep now
    (if s.crossingBlinkActive then closeTriggerStep now (lampToggleStep now s) else s)

/-- The timer-driven tail of one `loop()` iteration (lines 152-230). -/
def tick (now : ℕ) (s : SketchState) : SketchState :=
  crossingSection now (servo2Section now (servo1Section now s))

/-- One loop event: a timestamp and at most one available input line. -/
abbrev Ev := ℕ × Option String

/-- One full `loop()` iteration at time `e.1`, consuming the line `e.2` when
one is available. -/
def loopStep (e : Ev) (s : SketchState) : SketchState :=
  match e.2 with
  | some line => tick e.1 (processLine line e.1 s)
  | none => tick e.1 s

/-- Run a sequence of loop iterations from a given state. -/
def runFrom (s : SketchState) (evs : List Ev) : SketchState :=
  evs.foldl (fun t e => loopStep e t) s

/-- Run a sequence of loop iterations from the `setup()` state. -/
def run (evs : List Ev) : SketchState :=
  runFrom initState evs

/-- A line that is not a crossing command (neither `BZU` nor `BAUF`,
case-insensitively, after trimming). -/
def lineNoCross (l : String) : Bool :=
  !(lowerEq (trimChars l.data) ['B', 'Z', 'U']
    || lowerEq (trimChars l.data) ['B', 'A', 'U', 'F'])

/-- A loop event carrying no crossing command. -/
def noCross (e : Ev) : Bool :=
  match e.2 with
  | none => true
  | some l => lineNoCross l

/-! Arithmetic facts about the rounding and interpolation primitives. -/

/-! Run decomposition and frame lemmas. -/

lemma runFrom_append (s : SketchState) (a b : List Ev) :
    runFrom s (a ++ b) = runFrom (runFrom s a) b := by
  simp [runFrom, List.foldl_append]

lemma runFrom_cons (s : SketchState) (e : Ev) (evs : List Ev) :
    runFrom s (e :: evs) = runFrom (loopStep e s) evs := rfl

lemma runFrom_nil (s : SketchState) : runFrom s [] = s := rfl

lemma runFrom_preserve {P : SketchState → Prop} :
    ∀ evs : List Ev, (∀ e ∈ evs, ∀ s, P s → P (loopStep e s)) →
      ∀ s, P s → P (runFrom s evs) := by
  intro evs
  induction evs with
  | nil => intro _ s h; exact h
  | cons e rest ih =>
      intro hstep s h
      exact ih (fun e' he' => hstep e' (List.mem_cons_of_mem e he'))
        (loopStep e s) (hstep e (List.mem_cons_self e rest) s h)

/-- The crossing-machine and lamp components of the state, together with the
ghost close trace: everything that the `M2` and channel-1 serial branches and
the two servo sections leave untouched. -/
def crossView (s : SketchState) :=
  (s.crossingBlinkActive, s.crossingCloseCommanded, s.crossingOpeningDelayActive,
   s.crossingBlinkStartMs, s.crossingOpeningStartMs, s.lampPhase, s.lastLampToggleMs,
   s.lamp1, s.lamp2, s.closeMoves)

lemma crossView_execM2 (a d : ℤ) (now : ℕ) (s : SketchState) :
    crossView (execM2 a d now s) = crossView s := by
  unfold execM2
  split_ifs <;> rfl

lemma crossView_execCh1 (p : Option (ℤ × Option ℤ)) (now : ℕ) (s : SketchState) :
    crossView (execCh1 p now s) = crossView s := by
  cases p with
  | none => rfl
  | some q =>
      obtain ⟨a, dOpt⟩ := q
      cases dOpt with
      | none =>
          simp only [execCh1]
          split_ifs <;> rfl
      | some d =>
          simp only [execCh1]
          split_ifs <;> rfl

lemma crossView_servo1 (now : ℕ) (s : SketchState) :
    crossView (servo1Section now s) = crossView s := by
  simp only [servo1Section]
  split_ifs <;> rfl

lemma crossView_servo2 (now : ℕ) (s : SketchState) :
    crossView (servo2Section now s) = crossView s := by
  simp only [servo2Section]
  split_ifs <;> rfl

lemma crossView_processLine (line : String) (now : ℕ) (s : SketchState)
    (h : lineNoCross line = true) :
    crossView (processLine line now s) = crossView s := by
  unfold lineNoCross at h
  simp only [Bool.not_or, Bool.and_eq_true, Bool.not_eq_true'] at h
  obtain ⟨h1, h2⟩ := h
  simp only [processLine, h1, h2, if_false, Bool.false_eq_true]
  split_ifs <;> first
    | rfl
    | exact crossView_execM2 _ _ now s
    | exact crossView_execCh1 _ now s

lemma crossView_eq_fields {s t : SketchState} (h : crossView s = crossView t) :
    s.crossingBlinkActive = t.crossingBlinkActive ∧
    s.crossingCloseCommanded = t.crossingCloseCommanded ∧
    s.crossingOpeningDelayActive = t.crossingOpeningDelayActive ∧
    s.crossingBlinkStartMs = t.crossingBlinkStartMs ∧
    s.crossingOpeningStartMs = t.crossingOpeningStartMs ∧
    s.lampPhase = t.lampPhase ∧ s.lastLampToggleMs = t.lastLampToggleMs ∧
    s.lamp1 = t.lamp1 ∧ s.lamp2 = t.lamp2 ∧ s.closeMoves = t.closeMoves := by
  simpa [crossView, Prod.ext_iff] using h

/-- The effective condition for the delayed barrier-close branch to fire in a
given tick: the guard of line 214 together with its enclosing
`crossingBlinkActive` test (line 204). -/
def trigCond (now : ℕ) (s : SketchState) : Bool :=
  s.crossingBlinkActive && rawTrig now s

lemma lampToggleStep_frame (now : ℕ) (s : SketchState) :
    (lampToggleStep now s).crossingBlinkActive = s.crossingBlinkActive ∧
    (lampToggleStep now s).crossingCloseCommanded = s.crossingCloseCommanded ∧
    (lampToggleStep now s).crossingOpeningDelayActive = s.crossingOpeningDelayActive ∧
    (lampToggleStep now s).crossingBlinkStartMs = s.crossingBlinkStartMs ∧
    (lampToggleStep now s).crossingOpeningStartMs = s.crossingOpeningStartMs ∧
    (lampToggleStep now s).closeMoves = s.closeMoves ∧
    (lampToggleStep now s).currentAngle2 = s.currentAngle2 := by
  unfold lampToggleStep
  split_ifs <;> exact ⟨rfl, rfl, rfl, rfl, rfl, rfl, rfl⟩

lemma closeTriggerStep_pos (now : ℕ) (s : SketchState) (h : rawTrig now s = true) :
    closeTriggerStep now s =
      { s with move2StartAngle := s.currentAngle2, move2EndAngle := barrierClosedAngle,
               move2StartMs := now, move2DurationMs := barrierCloseDurationMs,
               move2Active := true, crossingCloseCommanded := true,
               closeMoves := ⟨s.currentAngle2, barrierClosedAngle, now,
                              barrierCloseDurationMs⟩ :: s.closeMoves } := by
  unfold closeTriggerStep
  rw [if_pos h]

lemma closeTriggerStep_neg (now : ℕ) (s : SketchState) (h : rawTrig now s = false) :
    closeTriggerStep now s = s := by
  unfold closeTriggerStep
  rw [h]
  simp

lemma stopStep_pos (now : ℕ) (s : SketchState) (h : stopCond now s = true) :
    stopStep now s =
      { s with crossingBlinkActive := false, crossingOpeningDelayActive := false,
               lamp1 := false, lamp2 := false } := by
  unfold stopStep
  rw [if_pos h]

lemma stopStep_neg (now : ℕ) (s : SketchState) (h : stopCond now s = false) :
    stopStep now s = s := by
  unfold stopStep
  rw [h]
  simp

lemma rawTrig_congr {s t : SketchState} (now : ℕ)
    (hcc : s.crossingCloseCommanded = t.crossingCloseCommanded)
    (hod : s.crossingOpeningDelayActive = t.crossingOpeningDelayActive)
    (hbs : s.crossingBlinkStartMs = t.crossingBlinkStartMs) :
    rawTrig now s = rawTrig now t := by
  unfold rawTrig
  rw [hcc, hod, hbs]

lemma stopCond_congr {s t : SketchState} (now : ℕ)
    (hod : s.crossingOpeningDelayActive = t.crossingOpeningDelayActive)
    (hos : s.crossingOpeningStartMs = t.crossingOpeningStartMs) :
    stopCond now s = stopCond now t := by
  unfold stopCond
  rw [hod, hos]

lemma crossingSection_spec (now : ℕ) (s : SketchState) :
    (crossingSection now s).crossingBlinkActive
        = (!stopCond now s && s.crossingBlinkActive) ∧
    (crossingSection now s).crossingCloseCommanded
        = (s.crossingCloseCommanded || trigCond now s) ∧
    (crossingSection now s).crossingOpeningDelayActive
        = (!stopCond now s && s.crossingOpeningDelayActive) ∧
    (crossingSection now s).crossingBlinkStartMs = s.crossingBlinkStartMs ∧
    (crossingSection now s).crossingOpeningStartMs = s.crossingOpeningStartMs ∧
    (crossingSection now s).closeMoves
        = (if trigCond now s = true then
             TimedMoveRec.mk s.currentAngle2 barrierClosedAngle now barrierCloseDurationMs
               :: s.closeMoves
           else s.closeMoves) ∧
    (stopCond now s = true →
      (crossingSection now s).lamp1 = false ∧ (crossingSection now s).lamp2 = false) := by
  obtain ⟨t1, t2, t3, t4, t5, t6, t7⟩ := lampToggleStep_frame now s
  cases hba : s.crossingBlinkActive
  · have hcs : crossingSection now s = stopStep now s := by
      simp [crossingSection, hba]
    have htrig : trigCond now s = false := by simp [trigCond, hba]
    rw [hcs, htrig]
    cases hstop : stopCond now s
    · rw [stopStep_neg now s hstop]
      simp [hba]
    · rw [stopStep_pos now s hstop]
      simp [hba]
  · have hcs : crossingSection now s
        = stopStep now (closeTriggerStep now (lampToggleStep now s)) := by
      simp [crossingSection, hba]
    have hraw : rawTrig now (lampToggleStep now s) = rawTrig now s :=
      rawTrig_congr now t2 t3 t4
    have htrig : trigCond now s = rawTrig now s := by simp [trigCond, hba]
    cases hr : rawTrig now s
    · have hct : closeTriggerStep now (lampToggleStep now s) = lampToggleStep now s :=
        closeTriggerStep_neg _ _ (by rw [hraw, hr])
      rw [hcs, hct]
      have hsc : stopCond now (lampToggleStep now s) = stopCond now s :=
        stopCond_congr now t3 t5
      cases hstop : stopCond now s
      · rw [stopStep_neg _ _ (by rw [hsc, hstop])]
        rw [htrig, hr]
        simp [t1, t2, t3, t4, t5, t6, hba]
      · rw [stopStep_pos _ _ (by rw [hsc, hstop])]
        rw [htrig, hr]
        simp [t1, t2, t3, t4, t5, t6, hba]
    · rw [hcs, closeTriggerStep_pos _ _ (by rw [hraw, hr])]
      have hsc : stopCond now
          ({ lampToggleStep now s with
              move2StartAngle := (lampToggleStep now s).currentAngle2,
              move2EndAngle := barrierClosedAngle, move2StartMs := now,
              move2DurationMs := barrierCloseDurationMs, move2Active := true,
              crossingCloseCommanded := true,
              closeMoves := ⟨(lampToggleStep now s).currentAngle2, barrierClosedAngle, now,
                             barrierCloseDurationMs⟩ :: (lampToggleStep now s).closeMoves })
          = stopCond now s := by
        refine (stopCond_congr now ?_ ?_) <;> simp [t3, t5]
      cases hstop : stopCond now s
      · rw [stopStep_neg _ _ (by rw [hsc, hstop])]
        rw [htrig, hr]
        simp [t1, t2, t3, t4, t5, t6, t7, hba]
      · rw [stopStep_pos _ _ (by rw [hsc, hstop])]
        rw [htrig, hr]
        simp [t1, t2, t3, t4, t5, t6, t7, hba]

lemma trigCond_congr {s t : SketchState} (now : ℕ)
    (hba : s.crossingBlinkActive = t.crossingBlinkActive)
    (hcc : s.crossingCloseCommanded = t.crossingCloseCommanded)
    (hod : s.crossingOpeningDelayActive = t.crossingOpeningDelayActive)
    (hbs : s.crossingBlinkStartMs = t.crossingBlinkStartMs) :
    trigCond now s = trigCond now t := by
  unfold trigCond
  rw [hba, rawTrig_congr now hcc hod hbs]

lemma processLine_bzu (now : ℕ) (s : SketchState) :
    processLine "BZU" now s =
      { s with crossingBlinkActive := true, crossingCloseCommanded := false,
               crossingOpeningDelayActive := false, crossingBlinkStartMs := now,
               lampPhase := false, lamp1 := true, lamp2 := false,
               lastLampToggleMs := now } := rfl

lemma processLine_bauf (now : ℕ) (s : SketchState) :
    processLine "BAUF" now s =
      (let s1 :=
        if s.crossingBlinkActive then
          { s with crossingOpeningDelayActive := true, crossingOpeningStartMs := now }
        else s
       { s1 with crossingCloseCommanded := false,
                 move2StartAngle := s1.currentAngle2, move2EndAngle := barrierOpenAngle,
                 move2StartMs := now, move2DurationMs := barrierOpenDurationMs,
                 move2Active := true }) := rfl

lemma processLine_bauf_fields (now : ℕ) (s : SketchState) :
    (processLine "BAUF" now s).crossingBlinkActive = s.crossingBlinkActive ∧
    (processLine "BAUF" now s).crossingCloseCommanded = false ∧
    (processLine "BAUF" now s).crossingOpeningDelayActive
        = (s.crossingBlinkActive || s.crossingOpeningDelayActive) ∧
    (processLine "BAUF" now s).crossingBlinkStartMs = s.crossingBlinkStartMs ∧
    (processLine "BAUF" now s).crossingOpeningStartMs
        = (if s.crossingBlinkActive = true then now else s.crossingOpeningStartMs) ∧
    (processLine "BAUF" now s).closeMoves = s.closeMoves ∧
    (processLine "BAUF" now s).move2Active = true ∧
    (processLine "BAUF" now s).move2StartAngle = s.currentAngle2 ∧
    (processLine "BAUF" now s).move2EndAngle = barrierOpenAngle ∧
    (processLine "BAUF" now s).move2StartMs = now ∧
    (processLine "BAUF" now s).move2DurationMs = barrierOpenDurationMs := by
  rw [processLine_bauf]
  cases hba : s.crossingBlinkActive <;> simp [hba]

lemma loopStep_some (t : ℕ) (l : String) (s : SketchState) :
    loopStep (t, some l) s = tick t (processLine l t s) := rfl

lemma loopStep_none (t : ℕ) (s : SketchState) :
    loopStep (t, none) s = tick t s := rfl

lemma tick_spec (now : ℕ) (s : SketchState) :
    (tick now s).crossingBlinkActive = (!stopCond now s && s.crossingBlinkActive) ∧
    (tick now s).crossingCloseCommanded = (s.crossingCloseCommanded || trigCond now s) ∧
    (tick now s).crossingOpeningDelayActive
        = (!stopCond now s && s.crossingOpeningDelayActive) ∧
    (tick now s).crossingBlinkStartMs = s.crossingBlinkStartMs ∧
    (tick now s).crossingOpeningStartMs = s.crossingOpeningStartMs ∧
    (∃ a2 : ℤ, (tick now s).closeMoves
        = (if trigCond now s = true then
             TimedMoveRec.mk a2 barrierClosedAngle now barrierCloseDurationMs :: s.closeMoves
           else s.closeMoves)) ∧
    (stopCond now s = true →
      (tick now s).lamp1 = false ∧ (tick now s).lamp2 = false) := by
  have hview : crossView (servo2Section now (servo1Section now s)) = crossView s := by
    rw [crossView_servo2, crossView_servo1]
  obtain ⟨hba, hcc, hod, hbs, hos, _, _, _, _, hcm⟩ := crossView_eq_fields hview
  have htk : tick now s = crossingSection now (servo2Section now (servo1Section now s)) := rfl
  obtain ⟨c1, c2, c3, c4, c5, c6, c7⟩ :=
    crossingSection_spec now (servo2Section now (servo1Section now s))
  have htr : trigCond now (servo2Section now (servo1Section now s)) = trigCond now s :=
    trigCond_congr now hba hcc hod hbs
  have hst : stopCond now (servo2Section now (servo1Section now s)) = stopCond now s :=
    stopCond_congr now hod hos
  rw [htr] at c2 c6
  rw [hst] at c1 c3 c7
  rw [htk]
  refine ⟨by rw [c1, hba], by rw [c2, hcc], by rw [c3, hod], by rw [c4, hbs],
    by rw [c5, hos], ⟨(servo2Section now (servo1Section now s)).currentAngle2, by rw [c6, hcm]⟩,
    c7⟩

lemma floor_intCast_add_half (n : ℤ) : ⌊(n : ℚ) + 1 / 2⌋ = n := by
  have h0 : ⌊(1 / 2 : ℚ)⌋ = 0 := by
    rw [Int.floor_eq_iff]
    norm_num
  rw [add_comm, Int.floor_add_int, h0, zero_add]

lemma roundC_intCast (n : ℤ) : roundC (n : ℚ) = n := by
  unfold roundC
  by_cases h : (0 : ℚ) ≤ (n : ℚ)
  · rw [if_pos h, floor_intCast_add_half]
  · rw [if_neg h]
    have : -(n : ℚ) = ((-n : ℤ) : ℚ) := by push_cast; ring
    rw [this, floor_intCast_add_half, neg_neg]

lemma roundC_mono_of_nonneg {q q' : ℚ} (h0 : 0 ≤ q) (h : q ≤ q') :
    roundC q ≤ roundC q' := by
  unfold roundC
  rw [if_pos h0, if_pos (h0.trans h)]
  exact Int.floor_mono (by linarith)

lemma roundC_bounds {q : ℚ} (h0 : 0 ≤ q) (h1 : q ≤ 180) :
    0 ≤ roundC q ∧ roundC q ≤ 180 := by
  unfold roundC
  rw [if_pos h0]
  constructor
  · exact Int.le_floor.mpr (by push_cast; linarith)
  · have : ⌊q + 1 / 2⌋ < 181 := Int.floor_lt.mpr (by push_cast; linarith)
    omega

lemma moveT_nonneg (e d : ℕ) : 0 ≤ moveT e d := by
  unfold moveT
  split
  · norm_num
  · exact le_min (by norm_num) (by positivity)

lemma moveT_le_one (e d : ℕ) : moveT e d ≤ 1 := by
  unfold moveT
  split
  · exact le_refl 1
  · exact min_le_left _ _

lemma moveT_mono {e e' : ℕ} (d : ℕ) (h : e ≤ e') : moveT e d ≤ moveT e' d := by
  unfold moveT
  split
  · exact le_refl 1
  · rename_i hd
    have hd' : (0 : ℚ) < (d : ℚ) := by positivity
    have hee : (e : ℚ) ≤ (e' : ℚ) := by exact_mod_cast h
    exact min_le_min (le_refl 1) (by gcongr)

lemma moveT_zero {d : ℕ} (hd : d ≠ 0) : moveT 0 d = 0 := by
  unfold moveT
  rw [if_neg hd]
  norm_num

lemma moveT_done {e d : ℕ} (h : d ≤ e) : moveT e d = 1 := by
  unfold moveT
  split
  · rfl
  · rename_i hd
    have hd' : (0 : ℚ) < (d : ℚ) := by positivity
    have : (1 : ℚ) ≤ (e : ℚ) / (d : ℚ) := by
      rw [le_div_iff₀ hd', one_mul]
      exact_mod_cast h
    exact min_eq_left this

lemma interpVal_bounds {a0 a1 : ℤ} (h00 : 0 ≤ a0) (h01 : a0 ≤ 180) (h10 : 0 ≤ a1)
    (h11 : a1 ≤ 180) {t : ℚ} (ht0 : 0 ≤ t) (ht1 : t ≤ 1) :
    0 ≤ (a0 : ℚ) + ((a1 : ℚ) - (a0 : ℚ)) * t ∧ (a0 : ℚ) + ((a1 : ℚ) - (a0 : ℚ)) * t ≤ 180 := by
  have hA0 : (0 : ℚ) ≤ (a0 : ℚ) := by exact_mod_cast h00
  have hA0' : (a0 : ℚ) ≤ 180 := by exact_mod_cast h01
  have hA1 : (0 : ℚ) ≤ (a1 : ℚ) := by exact_mod_cast h10
  have hA1' : (a1 : ℚ) ≤ 180 := by exact_mod_cast h11
  constructor
  · nlinarith [mul_nonneg hA0 (by linarith : (0 : ℚ) ≤ 1 - t), mul_nonneg hA1 ht0]
  · nlinarith [mul_nonneg (by linarith : (0 : ℚ) ≤ 180 - (a0 : ℚ)) (by linarith : (0 : ℚ) ≤ 1 - t),
      mul_nonneg (by linarith : (0 : ℚ) ≤ 180 - (a1 : ℚ)) ht0]

lemma interpAngle_bounds {a0 a1 : ℤ} (h00 : 0 ≤ a0) (h01 : a0 ≤ 180) (h10 : 0 ≤ a1)
    (h11 : a1 ≤ 180) (e d : ℕ) :
    0 ≤ interpAngle a0 a1 e d ∧ interpAngle a0 a1 e d ≤ 180 := by
  have hb := interpVal_bounds h00 h01 h10 h11 (moveT_nonneg e d) (moveT_le_one e d)
  exact roundC_bounds hb.1 hb.2

lemma interpAngle_zero {d : ℕ} (a0 a1 : ℤ) (hd : d ≠ 0) : interpAngle a0 a1 0 d = a0 := by
  unfold interpAngle
  rw [moveT_zero hd, mul_zero, add_zero, roundC_intCast]

lemma interpAngle_done {e d : ℕ} (a0 a1 : ℤ) (h : d ≤ e) : interpAngle a0 a1 e d = a1 := by
  unfold interpAngle
  rw [moveT_done h, mul_one, add_sub_cancel, roundC_intCast]

lemma interpAngle_mono {a0 a1 : ℤ} (h00 : 0 ≤ a0) (h01 : a0 ≤ 180) (h10 : 0 ≤ a1)
    (h11 : a1 ≤ 180) {e e' d : ℕ} (h : e ≤ e') :
    (a0 ≤ a1 → interpAngle a0 a1 e d ≤ interpAngle a0 a1 e' d) ∧
    (a1 ≤ a0 → interpAngle a0 a1 e' d ≤ interpAngle a0 a1 e d) := by
  have ht := moveT_mono d h
  have ht0 := moveT_nonneg e d
  have ht1 := moveT_le_one e d
  have ht0' := moveT_nonneg e' d
  have ht1' := moveT_le_one e' d
  have hb := interpVal_bounds h00 h01 h10 h11 ht0 ht1
  have hb' := interpVal_bounds h00 h01 h10 h11 ht0' ht1'
  constructor
  · intro hle
    have hc : ((a1 : ℚ) - (a0 : ℚ)) ≥ 0 := by
      have : (a0 : ℚ) ≤ (a1 : ℚ) := by exact_mod_cast hle
      linarith
    exact roundC_mono_of_nonneg hb.1 (by nlinarith)
  · intro hle
    have hc : ((a1 : ℚ) - (a0 : ℚ)) ≤ 0 := by
      have : (a1 : ℚ) ≤ (a0 : ℚ) := by exact_mod_cast hle
      linarith
    exact roundC_mono_of_nonneg hb'.1 (by nlinarith)

/-! Claim theorems. -/

/-- C7: for every timed move with duration `d > 0` and start/end angles in
`[0, 180]`, the interpolated angle computed at a tick equals the start angle
when the elapsed time is `0`, equals the end angle once the elapsed time
reaches the duration, and is monotone in the elapsed time (non-decreasing when
the end angle is above the start angle, non-increasing otherwise). -/
theorem C7_interp_endpoints_monotone (a0 a1 : ℤ) (d e e' : ℕ) (hd : 0 < d)
    (h00 : 0 ≤ a0) (h01 : a0 ≤ 180) (h10 : 0 ≤ a1) (h11 : a1 ≤ 180) (hee : e ≤ e') :
    interpAngle a0 a1 0 d = a0 ∧
    (d ≤ e → interpAngle a0 a1 e d = a1) ∧
    (a0 ≤ a1 → interpAngle a0 a1 e d ≤ interpAngle a0 a1 e' d) ∧
    (a1 ≤ a0 → interpAngle a0 a1 e' d ≤ interpAngle a0 a1 e d) :=
  ⟨interpAngle_zero a0 a1 (Nat.pos_iff_ne_zero.mp hd),
   fun h => interpAngle_done a0 a1 h,
   (interpAngle_mono h00 h01 h10 h11 hee).1,
   (interpAngle_mono h00 h01 h10 h11 hee).2⟩

/-- Witness for C7 at the barrier geometry `0 → 180`, duration 1000 ms. -/
theorem C7_interp_endpoints_monotone_witness :
    interpAngle 0 180 0 1000 = 0 ∧
    (1000 ≤ 500 → interpAngle 0 180 500 1000 = 180) ∧
    ((0 : ℤ) ≤ 180 → interpAngle 0 180 500 1000 ≤ interpAngle 0 180 800 1000) ∧
    ((180 : ℤ) ≤ 0 → interpAngle 0 180 800 1000 ≤ interpAngle 0 180 500 1000) :=
  C7_interp_endpoints_monotone 0 180 1000 500 800 (by norm_num) (by norm_num)
    (by norm_num) (by norm_num) (by norm_num) (by norm_num)

/-- C8: for an active timed move with duration 0, the interpolation fraction is
taken as 1 on the next tick, the servo angle jumps to the move's end angle, and
the move deactivates on that tick (both channels). -/
theorem C8_zero_duration_jump (now : ℕ) (s : SketchState) :
    moveT (now - s.moveStartMs) 0 = 1 ∧
    (s.moveActive = true → s.moveDurationMs = 0 →
      (servo1Section now s).currentAngle = s.moveEndAngle ∧
      (servo1Section now s).moveActive = false) ∧
    (s.move2Active = true → s.move2DurationMs = 0 →
      (servo2Section now s).currentAngle2 = s.move2EndAngle ∧
      (servo2Section now s).move2Active = false) := by
  have ht : moveT (now - s.moveStartMs) 0 = 1 := by unfold moveT; simp
  have ht2 : moveT (now - s.move2StartMs) 0 = 1 := by unfold moveT; simp
  refine ⟨ht, fun h1 h2 => ?_, fun h1 h2 => ?_⟩
  · have hna : interpAngle s.moveStartAngle s.moveEndAngle (now - s.moveStartMs) 0
        = s.moveEndAngle := interpAngle_done _ _ (Nat.zero_le _)
    unfold servo1Section
    rw [h1, h2]
    simp only [ht, hna, if_true, le_refl]
    split_ifs <;> simp_all
  · have hna : interpAngle s.move2StartAngle s.move2EndAngle (now - s.move2StartMs) 0
        = s.move2EndAngle := interpAngle_done _ _ (Nat.zero_le _)
    unfold servo2Section
    rw [h1, h2]
    simp only [ht2, hna, if_true, le_refl]
    split_ifs <;> simp_all

/-- A state with an in-flight timed move on both channels, used to witness the
claims about preemption and zero-duration moves. -/
def bothActiveState : SketchState :=
  { initState with moveActive := true, moveEndAngle := 123,
                   move2Active := true, move2EndAngle := 45 }

/-- Witness for C8 on a state with zero-duration moves active on both channels. -/
theorem C8_zero_duration_jump_witness :
    moveT (7 - bothActiveState.moveStartMs) 0 = 1 ∧
    ((servo1Section 7 bothActiveState).currentAngle = bothActiveState.moveEndAngle ∧
     (servo1Section 7 bothActiveState).moveActive = false) ∧
    ((servo2Section 7 bothActiveState).currentAngle2 = bothActiveState.move2EndAngle ∧
     (servo2Section 7 bothActiveState).move2Active = false) :=
  ⟨(C8_zero_duration_jump 7 bothActiveState).1,
   (C8_zero_duration_jump 7 bothActiveState).2.1 rfl rfl,
   (C8_zero_duration_jump 7 bothActiveState).2.2 rfl rfl⟩

/-- C9: with an in-flight motion on each channel, a new valid move command
replaces the pending motion with the new command's parameters — start angle the
current angle, the new end angle, start time `now`, the new duration — or, for
an immediate write, clears the active flag; the old motion is discarded
entirely (the new state carries no trace of it, so it can never resume). -/
theorem C9_new_command_preempts (now : ℕ) (s : SketchState) (a d : ℤ)
    (_hm1 : s.moveActive = true) (_hm2 : s.move2Active = true)
    (ha0 : 0 ≤ a) (ha1 : a ≤ 180) :
    (0 < d → execM2 a d now s =
      { s with move2StartAngle := s.currentAngle2, move2EndAngle := a,
               move2StartMs := now, move2DurationMs := d.toNat, move2Active := true }) ∧
    (d ≤ 0 → execM2 a d now s = { s with currentAngle2 := a, move2Active := false }) ∧
    ((processLine "BAUF" now s).move2StartAngle = s.currentAngle2 ∧
     (processLine "BAUF" now s).move2EndAngle = barrierOpenAngle ∧
     (processLine "BAUF" now s).move2StartMs = now ∧
     (processLine "BAUF" now s).move2DurationMs = barrierOpenDurationMs ∧
     (processLine "BAUF" now s).move2Active = true) ∧
    (0 < d → execCh1 (some (a, some d)) now s =
      { s with moveStartAngle := s.currentAngle, moveEndAngle := a,
               moveStartMs := now, moveDurationMs := d.toNat, moveActive := true }) ∧
    (execCh1 (some (a, none)) now s = { s with targetAngle := a, moveActive := false }) := by
  obtain ⟨_, _, _, _, _, _, f7, f8, f9, f10, f11⟩ := processLine_bauf_fields now s
  refine ⟨fun hd => ?_, fun hd => ?_, ⟨f8, f9, f10, f11, f7⟩, fun hd => ?_, ?_⟩
  · unfold execM2
    rw [if_pos ⟨ha0, ha1⟩, if_pos hd]
  · unfold execM2
    rw [if_pos ⟨ha0, ha1⟩, if_neg (by omega)]
  · simp only [execCh1]
    rw [if_pos ⟨ha0, ha1⟩, if_pos hd]
  · simp only [execCh1]
    rw [if_pos ⟨ha0, ha1⟩]

/-- Witness for C9: a timed `M2 170 250`, an immediate `M2 170 0`, a `BAUF`,
and channel-1 timed and untimed commands, all on a state with both moves
in flight. -/
theorem C9_new_command_preempts_witness :
    (execM2 170 250 11 bothActiveState =
      { bothActiveState with move2StartAngle := bothActiveState.currentAngle2,
                             move2EndAngle := 170, move2StartMs := 11,
                             move2DurationMs := (250 : ℤ).toNat, move2Active := true }) ∧
    (execM2 170 0 11 bothActiveState =
      { bothActiveState with currentAngle2 := 170, move2Active := false }) ∧
    ((processLine "BAUF" 11 bothActiveState).move2StartAngle
        = bothActiveState.currentAngle2 ∧
     (processLine "BAUF" 11 bothActiveState).move2EndAngle = barrierOpenAngle ∧
     (processLine "BAUF" 11 bothActiveState).move2StartMs = 11 ∧
     (processLine "BAUF" 11 bothActiveState).move2DurationMs = barrierOpenDurationMs ∧
     (processLine "BAUF" 11 bothActiveState).move2Active = true) ∧
    (execCh1 (some (170, some 250)) 11 bothActiveState =
      { bothActiveState with moveStartAngle := bothActiveState.currentAngle,
                             moveEndAngle := 170, moveStartMs := 11,
                             moveDurationMs := (250 : ℤ).toNat, moveActive := true }) ∧
    (execCh1 (some (170, none)) 11 bothActiveState =
      { bothActiveState with targetAngle := 170, moveActive := false }) :=
  ⟨(C9_new_command_preempts 11 bothActiveState 170 250 rfl rfl (by norm_num)
      (by norm_num)).1 (by norm_num),
   (C9_new_command_preempts 11 bothActiveState 170 0 rfl rfl (by norm_num)
      (by norm_num)).2.1 (by norm_num),
   (C9_new_command_preempts 11 bothActiveState 170 250 rfl rfl (by norm_num)
      (by norm_num)).2.2.1,
   (C9_new_command_preempts 11 bothActiveState 170 250 rfl rfl (by norm_num)
      (by norm_num)).2.2.2.1 (by norm_num),
   (C9_new_command_preempts 11 bothActiveState 170 250 rfl rfl (by norm_num)
      (by norm_num)).2.2.2.2⟩

/-- Counterexample to C3: the channel-1 grammar does not clamp — the line
`"200"` is rejected as a silent no-op (state unchanged), instead of being
clamped to 180 and executed as the claim requires. -/
theorem C3_counterexample_channel1_rejects :
    processLine "200" 0 initState = initState := rfl

lemma lowerEq_m2_bzu (rest : List Char) :
    lowerEq ('M' :: '2' :: rest) ['B', 'Z', 'U'] = false := by
  cases hq : lowerEq ('M' :: '2' :: rest) ['B', 'Z', 'U']
  · rfl
  · exfalso
    unfold lowerEq at hq
    have h := eq_of_beq hq
    simp only [List.map_cons] at h
    injection h with h1 _
    exact absurd h1 (by decide)

lemma lowerEq_m2_bauf (rest : List Char) :
    lowerEq ('M' :: '2' :: rest) ['B', 'A', 'U', 'F'] = false := by
  cases hq : lowerEq ('M' :: '2' :: rest) ['B', 'A', 'U', 'F']
  · rfl
  · exfalso
    unfold lowerEq at hq
    have h := eq_of_beq hq
    simp only [List.map_cons] at h
    injection h with h1 _
    exact absurd h1 (by decide)

/-- Every line whose trimmed text starts with `M2` is dispatched to the `M2`
branch: parse the arguments, then execute them (lines 97-129). -/
lemma processLine_m2_dispatch (line : String) (now : ℕ) (s : SketchState)
    (rest : List Char) (hcs : trimChars line.data = 'M' :: '2' :: rest) :
    processLine line now s
      = execM2 (parseM2 ('M' :: '2' :: rest)).1 (parseM2 ('M' :: '2' :: rest)).2
          now s := by
  simp only [processLine, hcs, lowerEq_m2_bzu, lowerEq_m2_bauf]
  simp [startsWithM2]

lemma constrainZ_mem (v : ℤ) : 0 ≤ constrainZ v 0 180 ∧ constrainZ v 0 180 ≤ 180 := by
  unfold constrainZ
  split_ifs <;> omega

/-- C3 amended: for every decoded `M2` (channel-2) line carrying an angle
argument, the executed angle is the raw `toInt` value clamped into `[0, 180]`;
clamping takes any out-of-range value to the nearest bound (negative values to
0, values above 180 to 180) and the clamped command is always executed, timed
or immediate, never rejected.  The channel-1 grammar instead rejects an
out-of-range leading integer as a silent no-op. -/
theorem C3_clamp_only_channel2 (line : String) (now : ℕ) (s : SketchState)
    (rest : List Char) (i : ℕ) (v a d : ℤ) (dOpt : Option ℤ)
    (hcs : trimChars line.data = 'M' :: '2' :: rest)
    (hsp : idxOf ' ' ('M' :: '2' :: rest) = some i) (hi : 0 < i)
    (hov : v < 0 ∨ 180 < v) (hoa : a < 0 ∨ 180 < a) :
    processLine line now s
      = execM2 (parseM2 ('M' :: '2' :: rest)).1 (parseM2 ('M' :: '2' :: rest)).2
          now s ∧
    (∃ raw : ℤ, (parseM2 ('M' :: '2' :: rest)).1 = constrainZ raw 0 180) ∧
    0 ≤ (parseM2 ('M' :: '2' :: rest)).1 ∧ (parseM2 ('M' :: '2' :: rest)).1 ≤ 180 ∧
    constrainZ v 0 180 = (if v < 0 then 0 else 180) ∧
    (0 < d → execM2 (constrainZ v 0 180) d now s
        = { s with move2StartAngle := s.currentAngle2,
                   move2EndAngle := constrainZ v 0 180, move2StartMs := now,
                   move2DurationMs := d.toNat, move2Active := true }) ∧
    (d ≤ 0 → execM2 (constrainZ v 0 180) d now s
        = { s with currentAngle2 := constrainZ v 0 180, move2Active := false }) ∧
    execCh1 (some (a, dOpt)) now s = s := by
  have hparse : ∃ raw : ℤ, (parseM2 ('M' :: '2' :: rest)).1 = constrainZ raw 0 180 := by
    unfold parseM2
    rw [hsp]
    simp only [if_pos hi]
    cases hj : idxOf ' ' (trimChars (('M' :: '2' :: rest).drop (i + 1))) with
    | none => exact ⟨atolZ (trimChars (('M' :: '2' :: rest).drop (i + 1))), rfl⟩
    | some j =>
        exact ⟨atolZ ((trimChars (('M' :: '2' :: rest).drop (i + 1))).take j), rfl⟩
  obtain ⟨raw, hraw⟩ := hparse
  have hno : ¬(0 ≤ a ∧ a ≤ 180) := by
    rintro ⟨h1, h2⟩
    rcases hoa with h | h <;> omega
  refine ⟨processLine_m2_dispatch line now s rest hcs, ⟨raw, hraw⟩,
    by rw [hraw]; exact (constrainZ_mem raw).1, by rw [hraw]; exact (constrainZ_mem raw).2,
    ?_, fun hd => ?_, fun hd => ?_, ?_⟩
  · unfold constrainZ
    rcases hov with h | h <;> split_ifs <;> omega
  · unfold execM2
    rw [if_pos (constrainZ_mem v), if_pos hd]
  · unfold execM2
    rw [if_pos (constrainZ_mem v), if_neg (by omega)]
  · cases dOpt with
    | none => simp only [execCh1]; rw [if_neg hno]
    | some d' => simp only [execCh1]; rw [if_neg hno]

/-- Witness for the amended C3: the spec's own example line `"M2 200 500"`, the
out-of-range angles `-50` (clamped to 0) and `200` (rejected on channel 1). -/
theorem C3_clamp_only_channel2_witness :
    processLine "M2 200 500" 3 initState
      = execM2 (parseM2 ('M' :: '2' :: " 200 500".data)).1
          (parseM2 ('M' :: '2' :: " 200 500".data)).2 3 initState ∧
    (∃ raw : ℤ, (parseM2 ('M' :: '2' :: " 200 500".data)).1 = constrainZ raw 0 180) ∧
    0 ≤ (parseM2 ('M' :: '2' :: " 200 500".data)).1 ∧
    (parseM2 ('M' :: '2' :: " 200 500".data)).1 ≤ 180 ∧
    constrainZ (-50) 0 180 = (if (-50 : ℤ) < 0 then 0 else 180) ∧
    ((0 : ℤ) < 500 → execM2 (constrainZ (-50) 0 180) 500 3 initState
        = { initState with move2StartAngle := initState.currentAngle2,
                           move2EndAngle := constrainZ (-50) 0 180, move2StartMs := 3,
                           move2DurationMs := (500 : ℤ).toNat, move2Active := true }) ∧
    ((500 : ℤ) ≤ 0 → execM2 (constrainZ (-50) 0 180) 500 3 initState
        = { initState with currentAngle2 := constrainZ (-50) 0 180,
                           move2Active := false }) ∧
    execCh1 (some (200, none)) 3 initState = initState :=
  C3_clamp_only_channel2 "M2 200 500" 3 initState (" 200 500".data) 2 (-50) 200 500
    none rfl rfl (by norm_num) (by norm_num) (by norm_num)

/-- Counterexample to C4: `"M2 x"` matches none of the four grammars, yet it is
not a no-op — `toInt`/`atol` parses `"x"` as 0, which passes the range check,
so channel 2 is immediately moved from 90 to angle 0. -/
theorem C4_counterexample_m2_junk_executes :
    (processLine "M2 x" 0 initState).currentAngle2 = 0 ∧
    initState.currentAngle2 = 90 :=
  ⟨rfl, rfl⟩

/-- The channel-1 grammar fails on a line: no leading integer can be converted,
or the converted integer is out of range. -/
def ch1NoMatch : Option (ℤ × Option ℤ) → Prop
  | none => True
  | some (a, _) => a < 0 ∨ 180 < a

/-- C4 amended: a line that is not a crossing command, does not start with
`M2`, and whose leading-integer parse fails or is out of `[0, 180]` is a silent
no-op; lines starting with `M2` are exempt (`"M2 x"` executes a move to 0). -/
theorem C4_silent_noop (line : String) (now : ℕ) (s : SketchState)
    (hnc : lineNoCross line = true)
    (hm2 : startsWithM2 (trimChars line.data) = false)
    (hch1 : ch1NoMatch (sscanf2 (trimChars line.data))) :
    processLine line now s = s := by
  unfold lineNoCross at hnc
  simp only [Bool.not_or, Bool.and_eq_true, Bool.not_eq_true'] at hnc
  obtain ⟨h1, h2⟩ := hnc
  simp only [processLine, h1, h2, hm2, if_false, Bool.false_eq_true]
  split_ifs with hlen
  · cases hp : sscanf2 (trimChars line.data) with
    | none => rfl
    | some q =>
        obtain ⟨a, dOpt⟩ := q
        rw [hp] at hch1
        unfold ch1NoMatch at hch1
        have hno : ¬(0 ≤ a ∧ a ≤ 180) := by
          rintro ⟨hx, hy⟩
          rcases hch1 with h | h <;> omega
        cases dOpt with
        | none => simp only [execCh1]; rw [if_neg hno]
        | some d => simp only [execCh1]; rw [if_neg hno]
  · rfl

/-- Witness for the amended C4 at the spec's example line `"hello"`. -/
theorem C4_silent_noop_witness : processLine "hello" 3 initState = initState :=
  C4_silent_noop "hello" 3 initState rfl rfl trivial

/-! Machinery for the crossing-state invariant (C6). -/

lemma lowerEq_length {a b : List Char} (h : lowerEq a b = true) : a.length = b.length := by
  unfold lowerEq at h
  have heq : a.map Char.toLower = b.map Char.toLower := by
    exact eq_of_beq h
  calc a.length = (a.map Char.toLower).length := (List.length_map a Char.toLower).symm
    _ = (b.map Char.toLower).length := by rw [heq]
    _ = b.length := List.length_map b Char.toLower

/-- The C6 invariant: a commanded close implies active blinking, and an
opening delay excludes a commanded close. -/
def P6 (s : SketchState) : Prop :=
  (s.crossingCloseCommanded = true → s.crossingBlinkActive = true) ∧
  ¬(s.crossingOpeningDelayActive = true ∧ s.crossingCloseCommanded = true)

lemma P6_processLine (line : String) (now : ℕ) (s : SketchState) (h : P6 s) :
    P6 (processLine line now s) := by
  by_cases hc : lineNoCross line = true
  · obtain ⟨hba, hcc, hod, _⟩ := crossView_eq_fields (crossView_processLine line now s hc)
    unfold P6 at h ⊢
    rw [hba, hcc, hod]
    exact h
  · unfold lineNoCross at hc
    have hor : (lowerEq (trimChars line.data) ['B', 'Z', 'U']
        || lowerEq (trimChars line.data) ['B', 'A', 'U', 'F']) = true := by
      cases hx : (lowerEq (trimChars line.data) ['B', 'Z', 'U']
          || lowerEq (trimChars line.data) ['B', 'A', 'U', 'F'])
      · exact absurd (by rw [hx]; rfl) hc
      · rfl
    have hc' : lowerEq (trimChars line.data) ['B', 'Z', 'U'] = true
        ∨ lowerEq (trimChars line.data) ['B', 'A', 'U', 'F'] = true := by
      cases hx : lowerEq (trimChars line.data) ['B', 'Z', 'U']
      · right
        rw [hx] at hor
        simpa using hor
      · left
        rfl
    rcases hc' with hbzu | hbauf
    · have hlen : 0 < (trimChars line.data).length := by
        rw [lowerEq_length hbzu]
        norm_num
      unfold processLine
      rw [if_pos hlen, if_pos hbzu]
      unfold P6
      simp
    · have hlen : 0 < (trimChars line.data).length := by
        rw [lowerEq_length hbauf]
        norm_num
      have hnz : lowerEq (trimChars line.data) ['B', 'Z', 'U'] = false := by
        cases hx : lowerEq (trimChars line.data) ['B', 'Z', 'U']
        · rfl
        · have l1 := lowerEq_length hx
          have l2 := lowerEq_length hbauf
          simp at l1 l2
          omega
      unfold processLine
      rw [if_pos hlen, hnz]
      simp only [Bool.false_eq_true, if_false, hbauf, if_true]
      unfold P6
      cases hba : s.crossingBlinkActive <;> simp

lemma P6_tick (now : ℕ) (s : SketchState) (h : P6 s) : P6 (tick now s) := by
  obtain ⟨c1, c2, c3, _, _, _, _⟩ := tick_spec now s
  unfold P6 at h ⊢
  rw [c1, c2, c3]
  unfold trigCond rawTrig stopCond at *
  cases hcc : s.crossingCloseCommanded <;> cases hod : s.crossingOpeningDelayActive <;>
    cases hba : s.crossingBlinkActive <;> simp_all

lemma P6_loopStep (e : Ev) (s : SketchState) (h : P6 s) : P6 (loopStep e s) := by
  rcases e with ⟨t, l⟩
  cases l with
  | none => exact P6_tick t s h
  | some line => exact P6_tick t _ (P6_processLine line t s h)

/-- C6: in every state reachable from the initial state under any sequence of
input lines and ticks, `crossingCloseCommanded = true` implies
`crossingBlinkActive = true`, and `crossingOpeningDelayActive` and
`crossingCloseCommanded` are never both true. -/
theorem C6_crossing_invariant (evs : List Ev) :
    ((run evs).crossingCloseCommanded = true → (run evs).crossingBlinkActive = true) ∧
    ¬((run evs).crossingOpeningDelayActive = true ∧
      (run evs).crossingCloseCommanded = true) :=
  runFrom_preserve evs (fun e _ s h => P6_loopStep e s h) initState
    ⟨fun h => by simp [initState] at h, fun h => by simp [initState] at h⟩

/-- Witness for C6 on a run whose final state has a commanded close. -/
theorem C6_crossing_invariant_witness :
    (run [(0, some "BZU"), (6000, none)]).crossingCloseCommanded = true ∧
    (run [(0, some "BZU"), (6000, none)]).crossingBlinkActive = true ∧
    ¬((run [(0, some "BZU"), (6000, none)]).crossingOpeningDelayActive = true ∧
      (run [(0, some "BZU"), (6000, none)]).crossingCloseCommanded = true) :=
  ⟨by decide, (C6_crossing_invariant [(0, some "BZU"), (6000, none)]).1 (by decide),
   (C6_crossing_invariant [(0, some "BZU"), (6000, none)]).2⟩

/-! Machinery for the angle-range invariant (C10). -/

/-- The C10 invariant: every angle-valued field of either channel stays in
`[0, 180]`. -/
def InvA (s : SketchState) : Prop :=
  0 ≤ s.currentAngle ∧ s.currentAngle ≤ 180 ∧
  0 ≤ s.targetAngle ∧ s.targetAngle ≤ 180 ∧
  0 ≤ s.moveStartAngle ∧ s.moveStartAngle ≤ 180 ∧
  0 ≤ s.moveEndAngle ∧ s.moveEndAngle ≤ 180 ∧
  0 ≤ s.currentAngle2 ∧ s.currentAngle2 ≤ 180 ∧
  0 ≤ s.move2StartAngle ∧ s.move2StartAngle ≤ 180 ∧
  0 ≤ s.move2EndAngle ∧ s.move2EndAngle ≤ 180

lemma InvA_execM2 (a d : ℤ) (now : ℕ) (s : SketchState) (h : InvA s) :
    InvA (execM2 a d now s) := by
  unfold InvA at h ⊢
  unfold execM2
  split_ifs <;> simp_all

lemma InvA_execCh1 (p : Option (ℤ × Option ℤ)) (now : ℕ) (s : SketchState) (h : InvA s) :
    InvA (execCh1 p now s) := by
  cases p with
  | none => exact h
  | some q =>
      obtain ⟨a, dOpt⟩ := q
      unfold InvA at h ⊢
      cases dOpt with
      | none =>
          simp only [execCh1]
          split_ifs <;> simp_all
      | some d =>
          simp only [execCh1]
          split_ifs <;> simp_all

lemma InvA_processLine (line : String) (now : ℕ) (s : SketchState) (h : InvA s) :
    InvA (processLine line now s) := by
  simp only [processLine]
  split_ifs with h1 h2 h3 h4 h5
  · unfold InvA at h ⊢
    simpa using h
  · unfold InvA at h ⊢
    simp_all [barrierOpenAngle]
  · unfold InvA at h ⊢
    simp_all [barrierOpenAngle]
  · exact InvA_execM2 _ _ now s h
  · exact InvA_execCh1 _ now s h
  · exact h

lemma InvA_servo1 (now : ℕ) (s : SketchState) (h : InvA s) :
    InvA (servo1Section now s) := by
  obtain ⟨i1, i2, i3, i4, i5, i6, i7, i8, i9, i10, i11, i12, i13, i14⟩ := h
  have hb := interpAngle_bounds i5 i6 i7 i8 (now - s.moveStartMs) s.moveDurationMs
  have hm1 : 0 ≤ min (s.currentAngle + stepSize) s.targetAngle :=
    le_min (by unfold stepSize; omega) i3
  have hm2 : min (s.currentAngle + stepSize) s.targetAngle ≤ 180 :=
    le_trans (min_le_right _ _) i4
  have hm3 : 0 ≤ max (s.currentAngle - stepSize) s.targetAngle :=
    le_trans i3 (le_max_right _ _)
  have hm4 : max (s.currentAngle - stepSize) s.targetAngle ≤ 180 :=
    max_le (by unfold stepSize; omega) i4
  unfold InvA
  simp only [servo1Section]
  split_ifs <;> simp_all

lemma InvA_servo2 (now : ℕ) (s : SketchState) (h : InvA s) :
    InvA (servo2Section now s) := by
  obtain ⟨i1, i2, i3, i4, i5, i6, i7, i8, i9, i10, i11, i12, i13, i14⟩ := h
  have hb := interpAngle_bounds i11 i12 i13 i14 (now - s.move2StartMs) s.move2DurationMs
  unfold InvA
  simp only [servo2Section]
  split_ifs <;> simp_all

lemma InvA_crossingSection (now : ℕ) (s : SketchState) (h : InvA s) :
    InvA (crossingSection now s) := by
  have hlt : ∀ t : SketchState, InvA t → InvA (lampToggleStep now t) := by
    intro t ht
    unfold lampToggleStep
    split_ifs <;> exact ht
  have hct : ∀ t : SketchState, InvA t → InvA (closeTriggerStep now t) := by
    intro t ht
    obtain ⟨i1, i2, i3, i4, i5, i6, i7, i8, i9, i10, i11, i12, i13, i14⟩ := ht
    unfold InvA
    unfold closeTriggerStep
    split_ifs <;> simp_all [barrierClosedAngle]
  have hst : ∀ t : SketchState, InvA t → InvA (stopStep now t) := by
    intro t ht
    unfold stopStep
    split_ifs <;> exact ht
  unfold crossingSection
  split_ifs with hba
  · exact hst _ (hct _ (hlt _ h))
  · exact hst _ h

lemma InvA_loopStep (e : Ev) (s : SketchState) (h : InvA s) : InvA (loopStep e s) := by
  rcases e with ⟨t, l⟩
  cases l with
  | none => exact InvA_crossingSection t _ (InvA_servo2 t _ (InvA_servo1 t s h))
  | some line =>
      exact InvA_crossingSection t _ (InvA_servo2 t _ (InvA_servo1 t _
        (InvA_processLine line t s h)))

/-- C10: in every state reachable from the initial state (angles 90) under any
sequence of input lines and ticks, both servo angles stay within `[0, 180]`. -/
theorem C10_angles_stay_in_range (evs : List Ev) :
    0 ≤ (run evs).currentAngle ∧ (run evs).currentAngle ≤ 180 ∧
    0 ≤ (run evs).currentAngle2 ∧ (run evs).currentAngle2 ≤ 180 := by
  have h : InvA (run evs) :=
    runFrom_preserve evs (fun e _ s h => InvA_loopStep e s h) initState
      (by unfold InvA initState; norm_num)
  obtain ⟨i1, i2, _, _, _, _, _, _, i9, i10, _⟩ := h
  exact ⟨i1, i2, i9, i10⟩

/-! Machinery for the temporal claims (C1, C2, C5). -/

lemma loopStep_noCross_spec (e : Ev) (s : SketchState) (h : noCross e = true) :
    (loopStep e s).crossingBlinkActive = (!stopCond e.1 s && s.crossingBlinkActive) ∧
    (loopStep e s).crossingCloseCommanded = (s.crossingCloseCommanded || trigCond e.1 s) ∧
    (loopStep e s).crossingOpeningDelayActive
        = (!stopCond e.1 s && s.crossingOpeningDelayActive) ∧
    (loopStep e s).crossingBlinkStartMs = s.crossingBlinkStartMs ∧
    (loopStep e s).crossingOpeningStartMs = s.crossingOpeningStartMs ∧
    (∃ a2 : ℤ, (loopStep e s).closeMoves
        = (if trigCond e.1 s = true then
             TimedMoveRec.mk a2 barrierClosedAngle e.1 barrierCloseDurationMs :: s.closeMoves
           else s.closeMoves)) ∧
    (stopCond e.1 s = true →
      (loopStep e s).lamp1 = false ∧ (loopStep e s).lamp2 = false) := by
  rcases e with ⟨t, l⟩
  cases l with
  | none => simpa using tick_spec t s
  | some line =>
      have hnc : lineNoCross line = true := by simpa [noCross] using h
      obtain ⟨hba, hcc, hod, hbs, hos, _, _, _, _, hcm⟩ :=
        crossView_eq_fields (crossView_processLine line t s hnc)
      obtain ⟨c1, c2, c3, c4, c5, c6, c7⟩ := tick_spec t (processLine line t s)
      have htr : trigCond t (processLine line t s) = trigCond t s :=
        trigCond_congr t hba hcc hod hbs
      have hst : stopCond t (processLine line t s) = stopCond t s :=
        stopCond_congr t hod hos
      rw [htr] at c2 c6
      rw [hst] at c1 c3 c7
      rw [hba] at c1
      rw [hcc] at c2
      rw [hod] at c3
      rw [hbs] at c4
      rw [hos] at c5
      rw [hcm] at c6
      exact ⟨c1, c2, c3, c4, c5, c6, c7⟩

/-- The crossing machine is idle: no blinking and no pending opening delay. -/
def IdleC (s : SketchState) : Prop :=
  s.crossingBlinkActive = false ∧ s.crossingOpeningDelayActive = false

lemma IdleC_step (e : Ev) (s : SketchState) (hnc : noCross e = true) (h : IdleC s) :
    IdleC (loopStep e s) ∧ (loopStep e s).closeMoves = s.closeMoves := by
  obtain ⟨hba, hod⟩ := h
  obtain ⟨c1, _, c3, _, _, ⟨a2, c6⟩, _⟩ := loopStep_noCross_spec e s hnc
  have htr : trigCond e.1 s = false := by
    unfold trigCond
    rw [hba]
    rfl
  have hstp : stopCond e.1 s = false := by
    unfold stopCond
    rw [hod]
    rfl
  rw [htr] at c6
  rw [hstp] at c1 c3
  rw [hba] at c1
  rw [hod] at c3
  simp only [Bool.false_eq_true, if_false] at c6
  exact ⟨⟨by simpa using c1, by simpa using c3⟩, c6⟩

/-- After `BZU` at time `T`, before any trigger: blinking with a fresh blink
clock, nothing commanded, no opening pending, close trace unchanged. -/
def Armed (T : ℕ) (c : List TimedMoveRec) (s : SketchState) : Prop :=
  s.crossingBlinkActive = true ∧ s.crossingCloseCommanded = false ∧
  s.crossingOpeningDelayActive = false ∧ s.crossingBlinkStartMs = T ∧
  s.closeMoves = c

/-- The close branch has fired exactly once since `BZU` at time `T`. -/
def Fired (T : ℕ) (s : SketchState) : Prop :=
  s.crossingCloseCommanded = true ∧
  ∃ m : TimedMoveRec, s.closeMoves = [m] ∧ m.endAngle = barrierClosedAngle ∧
    m.durationMs = barrierCloseDurationMs ∧ T + preBlinkDelayMs ≤ m.startMs

lemma bzu_step_spec (T : ℕ) (s : SketchState) :
    Armed T s.closeMoves (loopStep (T, some "BZU") s) := by
  rw [loopStep_some, processLine_bzu]
  obtain ⟨c1, c2, c3, c4, _, ⟨a2, c6⟩, _⟩ := tick_spec T
    { s with crossingBlinkActive := true, crossingCloseCommanded := false,
             crossingOpeningDelayActive := false, crossingBlinkStartMs := T,
             lampPhase := false, lamp1 := true, lamp2 := false,
             lastLampToggleMs := T }
  have htr : trigCond T
      { s with crossingBlinkActive := true, crossingCloseCommanded := false,
               crossingOpeningDelayActive := false, crossingBlinkStartMs := T,
               lampPhase := false, lamp1 := true, lamp2 := false,
               lastLampToggleMs := T } = false := by
    unfold trigCond rawTrig
    simp [preBlinkDelayMs]
  have hstp : stopCond T
      { s with crossingBlinkActive := true, crossingCloseCommanded := false,
               crossingOpeningDelayActive := false, crossingBlinkStartMs := T,
               lampPhase := false, lamp1 := true, lamp2 := false,
               lastLampToggleMs := T } = false := by
    unfold stopCond
    simp
  rw [htr] at c2 c6
  rw [hstp] at c1 c3
  simp only [Bool.false_eq_true, if_false] at c6
  exact ⟨by simpa using c1, by simpa using c2, by simpa using c3, by simpa using c4,
    by simpa using c6⟩

lemma armed_step (T : ℕ) (c : List TimedMoveRec) (e : Ev) (s : SketchState)
    (hnc : noCross e = true) (h : Armed T c s) :
    (e.1 < T + preBlinkDelayMs → Armed T c (loopStep e s)) ∧
    (T + preBlinkDelayMs ≤ e.1 → c = [] → Fired T (loopStep e s)) := by
  obtain ⟨hba, hcc, hod, hbs, hcm⟩ := h
  obtain ⟨c1, c2, c3, c4, _, ⟨a2, c6⟩, _⟩ := loopStep_noCross_spec e s hnc
  have hstp : stopCond e.1 s = false := by
    unfold stopCond
    rw [hod]
    rfl
  rw [hstp] at c1 c3
  rw [hba] at c1
  rw [hcc] at c2
  rw [hod] at c3
  rw [hbs] at c4
  rw [hcm] at c6
  constructor
  · intro ht
    have htr : trigCond e.1 s = false := by
      unfold trigCond rawTrig
      rw [hba, hcc, hod, hbs]
      have : ¬(preBlinkDelayMs ≤ e.1 - T) := by
        unfold preBlinkDelayMs at ht ⊢
        omega
      simp [this]
    rw [htr] at c6
    simp only [Bool.false_eq_true, if_false] at c6
    rw [htr] at c2
    exact ⟨by simpa using c1, by simpa using c2, by simpa using c3, c4, c6⟩
  · intro ht hc
    subst hc
    have htr : trigCond e.1 s = true := by
      unfold trigCond rawTrig
      rw [hba, hcc, hod, hbs]
      have : preBlinkDelayMs ≤ e.1 - T := by
        unfold preBlinkDelayMs at ht ⊢
        omega
      simp [this]
    rw [htr] at c2 c6
    simp only [if_true] at c6
    refine ⟨by simpa using c2, ⟨a2, barrierClosedAngle, e.1, barrierCloseDurationMs⟩,
      by rw [c6], rfl, rfl, ?_⟩
    show T + preBlinkDelayMs ≤ e.1
    exact ht

lemma fired_step (T : ℕ) (e : Ev) (s : SketchState)
    (hnc : noCross e = true) (h : Fired T s) : Fired T (loopStep e s) := by
  obtain ⟨hcc, m, hcm, hm1, hm2, hm3⟩ := h
  obtain ⟨_, c2, _, _, _, ⟨a2, c6⟩, _⟩ := loopStep_noCross_spec e s hnc
  have htr : trigCond e.1 s = false := by
    unfold trigCond rawTrig
    rw [hcc]
    simp
  rw [htr] at c2 c6
  simp only [Bool.false_eq_true, if_false] at c6
  rw [hcc] at c2
  exact ⟨by simpa using c2, m, by rw [c6, hcm], hm1, hm2, hm3⟩

/-- After `BAUF` at time `T` with blinking active: opening delay pending with
clock `T`, still blinking. -/
def Opening (T : ℕ) (s : SketchState) : Prop :=
  s.crossingOpeningDelayActive = true ∧ s.crossingOpeningStartMs = T ∧
  s.crossingBlinkActive = true

lemma bauf_step_spec (T : ℕ) (s : SketchState) (hba : s.crossingBlinkActive = true) :
    Opening T (loopStep (T, some "BAUF") s) ∧
    (loopStep (T, some "BAUF") s).closeMoves = s.closeMoves := by
  rw [loopStep_some]
  obtain ⟨f1, f2, f3, _, f5, f6, _⟩ := processLine_bauf_fields T s
  obtain ⟨c1, _, c3, _, c5, ⟨a2, c6⟩, _⟩ := tick_spec T (processLine "BAUF" T s)
  rw [hba] at f3 f5
  simp only [if_pos rfl, Bool.true_or] at f3 f5
  have hstp : stopCond T (processLine "BAUF" T s) = false := by
    unfold stopCond
    rw [f3, f5]
    simp [lampStopDelayMs]
  have htr : trigCond T (processLine "BAUF" T s) = false := by
    unfold trigCond rawTrig
    rw [f3]
    simp
  rw [hstp] at c1 c3
  rw [htr] at c6
  simp only [Bool.false_eq_true, if_false] at c6
  rw [f1, hba] at c1
  rw [f3] at c3
  rw [f6] at c6
  exact ⟨⟨by simpa using c3, by rw [c5]; exact f5, by simpa using c1⟩, c6⟩

lemma opening_step (T : ℕ) (e : Ev) (s : SketchState)
    (hnc : noCross e = true) (ht : e.1 < T + lampStopDelayMs) (h : Opening T s) :
    Opening T (loopStep e s) ∧ (loopStep e s).closeMoves = s.closeMoves := by
  obtain ⟨hod, hos, hba⟩ := h
  obtain ⟨c1, _, c3, _, c5, ⟨a2, c6⟩, _⟩ := loopStep_noCross_spec e s hnc
  have hstp : stopCond e.1 s = false := by
    unfold stopCond
    rw [hod, hos]
    have : ¬(lampStopDelayMs ≤ e.1 - T) := by
      unfold lampStopDelayMs at ht ⊢
      omega
    simp [this]
  have htr : trigCond e.1 s = false := by
    unfold trigCond rawTrig
    rw [hod]
    simp
  rw [hstp] at c1 c3
  rw [htr] at c6
  simp only [Bool.false_eq_true, if_false] at c6
  rw [hod] at c3
  rw [hba] at c1
  rw [hos] at c5
  exact ⟨⟨by simpa using c3, c5, by simpa using c1⟩, c6⟩

lemma opening_fire (T : ℕ) (e : Ev) (s : SketchState)
    (hnc : noCross e = true) (ht : T + lampStopDelayMs ≤ e.1) (h : Opening T s) :
    (loopStep e s).crossingBlinkActive = false ∧
    (loopStep e s).lamp1 = false ∧ (loopStep e s).lamp2 = false := by
  obtain ⟨hod, hos, _⟩ := h
  obtain ⟨c1, _, _, _, _, _, c7⟩ := loopStep_noCross_spec e s hnc
  have hstp : stopCond e.1 s = true := by
    unfold stopCond
    rw [hod, hos]
    have : lampStopDelayMs ≤ e.1 - T := by
      unfold lampStopDelayMs at ht ⊢
      omega
    simp [this]
  rw [hstp] at c1
  obtain ⟨l1, l2⟩ := c7 hstp
  exact ⟨by simpa using c1, l1, l2⟩

/-- After `BAUF`: either the opening delay is still pending, or blinking has
stopped; in both cases the close branch can never fire again. -/
def OpenedOrOpening (s : SketchState) : Prop :=
  s.crossingOpeningDelayActive = true ∨ s.crossingBlinkActive = false

lemma openedOrOpening_step (e : Ev) (s : SketchState)
    (hnc : noCross e = true) (h : OpenedOrOpening s) :
    OpenedOrOpening (loopStep e s) ∧ (loopStep e s).closeMoves = s.closeMoves := by
  obtain ⟨c1, _, c3, _, _, ⟨a2, c6⟩, _⟩ := loopStep_noCross_spec e s hnc
  have htr : trigCond e.1 s = false := by
    unfold trigCond rawTrig
    rcases h with hod | hba
    · rw [hod]
      simp
    · rw [hba]
      rfl
  rw [htr] at c6
  simp only [Bool.false_eq_true, if_false] at c6
  refine ⟨?_, c6⟩
  cases hstp : stopCond e.1 s
  · rw [hstp] at c1 c3
    rcases h with hod | hba
    · left
      rw [c3, hod]
      rfl
    · right
      rw [c1, hba]
      simp
  · right
    rw [hstp] at c1
    simpa using c1

lemma armedOrFired_run (T : ℕ) : ∀ (evs : List Ev) (s : SketchState),
    (∀ e ∈ evs, noCross e = true) → (Armed T [] s ∨ Fired T s) →
    ((∃ e ∈ evs, T + preBlinkDelayMs ≤ e.1) ∨ Fired T s) →
    Fired T (runFrom s evs) := by
  intro evs
  induction evs with
  | nil =>
      intro s _ _ hex
      rcases hex with ⟨e, he, _⟩ | hf
      · exact absurd he (List.not_mem_nil e)
      · exact hf
  | cons e rest ih =>
      intro s hnc hdisj hex
      have hncr : ∀ x ∈ rest, noCross x = true :=
        fun x hx => hnc x (List.mem_cons_of_mem e hx)
      have hnce : noCross e = true := hnc e (List.mem_cons_self e rest)
      rw [runFrom_cons]
      rcases hdisj with ha | hf
      · by_cases he : T + preBlinkDelayMs ≤ e.1
        · have hf' : Fired T (loopStep e s) := (armed_step T [] e s hnce ha).2 he rfl
          exact ih (loopStep e s) hncr (Or.inr hf') (Or.inr hf')
        · have ha' : Armed T [] (loopStep e s) :=
            (armed_step T [] e s hnce ha).1 (by omega)
          apply ih (loopStep e s) hncr (Or.inl ha')
          rcases hex with ⟨e', he', ht'⟩ | hf0
          · rcases List.mem_cons.mp he' with rfl | hmem
            · exact absurd ht' he
            · exact Or.inl ⟨e', hmem, ht'⟩
          · exact absurd hf0.1 (by rw [ha.2.1]; simp)
      · have hf' := fired_step T e s hnce hf
        exact ih (loopStep e s) hncr (Or.inr hf') (Or.inr hf')

/-- C1: in a run where `BZU` arrives at time `t0` and `BAUF` at time `t1`
before the 6000 ms pre-close delay has elapsed (and no other crossing command
occurs), the timed barrier-close move is never triggered at any tick: the
close trace of the whole run is empty. -/
theorem C1_open_before_delay_blocks_close (pre mid post : List Ev) (t0 t1 : ℕ)
    (hpre : ∀ e ∈ pre, noCross e = true) (hmid : ∀ e ∈ mid, noCross e = true)
    (hpost : ∀ e ∈ post, noCross e = true)
    (hmidT : ∀ e ∈ mid, e.1 ≤ t1) (ht : t1 < t0 + preBlinkDelayMs) :
    (run (pre ++ (t0, some "BZU") :: mid ++ (t1, some "BAUF") :: post)).closeMoves
      = [] := by
  set A := runFrom initState pre with hA_def
  have hA : IdleC A ∧ A.closeMoves = [] := by
    apply runFrom_preserve (P := fun s => IdleC s ∧ s.closeMoves = []) pre ?_ initState
      ⟨⟨rfl, rfl⟩, rfl⟩
    intro e he s hs
    obtain ⟨h1, h2⟩ := IdleC_step e s (hpre e he) hs.1
    exact ⟨h1, by rw [h2, hs.2]⟩
  set B := loopStep (t0, some "BZU") A with hB_def
  have hB : Armed t0 [] B := by
    have h := bzu_step_spec t0 A
    rwa [hA.2] at h
  set C := runFrom B mid with hC_def
  have hC : Armed t0 [] C := by
    apply runFrom_preserve (P := Armed t0 []) mid ?_ B hB
    intro e he s hs
    exact (armed_step t0 [] e s (hmid e he) hs).1 (by have := hmidT e he; omega)
  set D := loopStep (t1, some "BAUF") C with hD_def
  have hD : Opening t1 D ∧ D.closeMoves = [] := by
    have h := bauf_step_spec t1 C hC.1
    exact ⟨h.1, by rw [h.2, hC.2.2.2.2]⟩
  have hfinal : OpenedOrOpening (runFrom D post) ∧ (runFrom D post).closeMoves = [] := by
    apply runFrom_preserve (P := fun s => OpenedOrOpening s ∧ s.closeMoves = []) post ?_ D
      ⟨Or.inl hD.1.1, hD.2⟩
    intro e he s hs
    obtain ⟨h1, h2⟩ := openedOrOpening_step e s (hpost e he) hs.1
    exact ⟨h1, by rw [h2, hs.2]⟩
  have hrun : run (pre ++ (t0, some "BZU") :: mid ++ (t1, some "BAUF") :: post)
      = runFrom D post := by
    unfold run
    rw [runFrom_append, runFrom_append, runFrom_cons, runFrom_cons, ← hA_def, ← hB_def,
      ← hC_def, ← hD_def]
  rw [hrun]
  exact hfinal.2

/-- Witness for C1: `BZU` at 0 immediately followed by `BAUF` at 0. -/
theorem C1_open_before_delay_blocks_close_witness :
    (run [(0, some "BZU"), (0, some "BAUF")]).closeMoves = [] := by
  simpa using C1_open_before_delay_blocks_close [] [] [] 0 0 (by simp) (by simp)
    (by simp) (by simp) (by unfold preBlinkDelayMs; omega)

/-- C2: in a run where `BZU` arrives at time `T` and no other crossing command
ever arrives, once some tick happens at a time `≥ T + 6000 ms` the timed
barrier-close move is triggered exactly once, with end angle
`barrierClosedAngle` and duration 2000 ms, at a time `≥ T + 6000 ms`. -/
theorem C2_close_fires_exactly_once (pre post : List Ev) (T : ℕ)
    (hpre : ∀ e ∈ pre, noCross e = true) (hpost : ∀ e ∈ post, noCross e = true)
    (hex : ∃ e ∈ post, T + preBlinkDelayMs ≤ e.1) :
    ∃ m : TimedMoveRec,
      (run (pre ++ (T, some "BZU") :: post)).closeMoves = [m] ∧
      m.endAngle = barrierClosedAngle ∧ m.durationMs = barrierCloseDurationMs ∧
      T + preBlinkDelayMs ≤ m.startMs := by
  set A := runFrom initState pre with hA_def
  have hA : IdleC A ∧ A.closeMoves = [] := by
    apply runFrom_preserve (P := fun s => IdleC s ∧ s.closeMoves = []) pre ?_ initState
      ⟨⟨rfl, rfl⟩, rfl⟩
    intro e he s hs
    obtain ⟨h1, h2⟩ := IdleC_step e s (hpre e he) hs.1
    exact ⟨h1, by rw [h2, hs.2]⟩
  set B := loopStep (T, some "BZU") A with hB_def
  have hB : Armed T [] B := by
    have h := bzu_step_spec T A
    rwa [hA.2] at h
  have hrun : run (pre ++ (T, some "BZU") :: post) = runFrom B post := by
    unfold run
    rw [runFrom_append, runFrom_cons, ← hA_def, ← hB_def]
  have hf : Fired T (runFrom B post) :=
    armedOrFired_run T post B hpost (Or.inl hB) (Or.inl hex)
  rw [hrun]
  obtain ⟨_, m, hcm, h1, h2, h3⟩ := hf
  exact ⟨m, hcm, h1, h2, h3⟩

/-- Witness for C2: `BZU` at 0, one tick at 6000 ms. -/
theorem C2_close_fires_exactly_once_witness :
    ∃ m : TimedMoveRec,
      (run [(0, some "BZU"), (6000, none)]).closeMoves = [m] ∧
      m.endAngle = barrierClosedAngle ∧ m.durationMs = barrierCloseDurationMs ∧
      0 + preBlinkDelayMs ≤ m.startMs := by
  simpa using C2_close_fires_exactly_once [] [(6000, none)] 0 (by simp)
    (by simp [noCross])
    ⟨(6000, none), by simp, by unfold preBlinkDelayMs; omega⟩

/-- C5: when `BAUF` arrives at time `T` while blinking is active (and no other
crossing command follows), the lamps keep blinking at every tick before
`T + 500 ms`, and the first tick at a time `≥ T + 500 ms` stops blinking and
drives both lamp outputs low. -/
theorem C5_lamps_stop_500ms_after_open (pre post1 : List Ev) (T : ℕ) (e' : Ev)
    (hblink : (run pre).crossingBlinkActive = true)
    (hp1 : ∀ e ∈ post1, noCross e = true)
    (hp1T : ∀ e ∈ post1, e.1 < T + lampStopDelayMs)
    (hnc' : noCross e' = true) (ht' : T + lampStopDelayMs ≤ e'.1) :
    (run (pre ++ (T, some "BAUF") :: post1)).crossingBlinkActive = true ∧
    (run (pre ++ (T, some "BAUF") :: post1 ++ [e'])).crossingBlinkActive = false ∧
    (run (pre ++ (T, some "BAUF") :: post1 ++ [e'])).lamp1 = false ∧
    (run (pre ++ (T, some "BAUF") :: post1 ++ [e'])).lamp2 = false := by
  set A := runFrom initState pre with hA_def
  set B := loopStep (T, some "BAUF") A with hB_def
  have hB : Opening T B := (bauf_step_spec T A hblink).1
  set C := runFrom B post1 with hC_def
  have hC : Opening T C := by
    apply runFrom_preserve (P := Opening T) post1 ?_ B hB
    intro e he s hs
    exact (opening_step T e s (hp1 e he) (hp1T e he) hs).1
  have hrun1 : run (pre ++ (T, some "BAUF") :: post1) = C := by
    unfold run
    rw [runFrom_append, runFrom_cons, ← hA_def, ← hB_def, ← hC_def]
  have hrun2 : run (pre ++ (T, some "BAUF") :: post1 ++ [e']) = loopStep e' C := by
    unfold run
    simp only [runFrom_append, runFrom_cons, runFrom_nil]
  obtain ⟨f1, f2, f3⟩ := opening_fire T e' C hnc' ht' hC
  rw [hrun1, hrun2]
  exact ⟨hC.2.2, f1, f2, f3⟩

/-- Witness for C5: blinking started by `BZU` at 0, `BAUF` at 10, a tick at
400 ms (still blinking), and a tick at 510 ms (lamps stopped). -/
theorem C5_lamps_stop_500ms_after_open_witness :
    (run [(0, some "BZU"), (10, some "BAUF"), (400, none)]).crossingBlinkActive = true ∧
    (run [(0, some "BZU"), (10, some "BAUF"), (400, none),
          (510, none)]).crossingBlinkActive = false ∧
    (run [(0, some "BZU"), (10, some "BAUF"), (400, none), (510, none)]).lamp1 = false ∧
    (run [(0, some "BZU"), (10, some "BAUF"), (400, none), (510, none)]).lamp2 = false := by
  simpa using C5_lamps_stop_500ms_after_open [(0, some "BZU")] [(400, none)] 10
    (510, none) (by decide) (by simp [noCross])
    (by intro e he; simp at he; subst he; unfold lampStopDelayMs; omega)
    (by decide) (by unfold lampStopDelayMs; omega)

end Crossing
